import Mathlib

/-!
# list-bucket-mysql: key parsing and the paginated bucket walk

A shallow embedding of `src/list-bucket-mysql.go`:

* `parseS3Key` (lines 176-199), with the three standard-library string
  functions it calls (`strings.TrimSpace`, `strings.Split`, `strings.Join`);
* `getObjectsPage` (lines 147-173), the loop over the keys of one page;
* `getBucketObjects` (lines 113-144), the loop over the pages.

Go strings are modelled as lists of Unicode code points (`GoString`), which is
what a valid UTF-8 string is; the separators used by the program (`/` and `.`)
are single bytes, so splitting code points and splitting bytes agree.

The Go type `int` is 64 bits wide on the platforms the tool is built for.
The configured offset `s3keyoffset` comes straight from a command-line flag, so
the one computation on it, `s3keyoffset + 1`, is modelled with two's-complement
wrap-around (`wrapInt`). The two counters `pageCount` and `count` start at 0
and grow by one per iteration; they are plain integers here, since reaching
`2^63` iterations is out of the question (for `pageCount`, line 124 even
guarantees `pageCount < maxPages` before the increment).

A run-time panic (slice bounds or index out of range) is an outcome of its own:
`parseS3Key` returns `none`, the loops return `Completion.panicked`.
-/

set_option linter.unusedVariables false

namespace ListBucket

/-- A Go string, as its sequence of code points. -/
abbrev GoString := List Char

/-! ## Standard-library string functions -/

/-- Go `unicode.IsSpace`: the code points with the Unicode White_Space property. -/
def isSpace (c : Char) : Bool :=
  let n := c.toNat
  (0x09 ≤ n && n ≤ 0x0D) || n == 0x20 || n == 0x85 || n == 0xA0 || n == 0x1680 ||
  (0x2000 ≤ n && n ≤ 0x200A) || n == 0x2028 || n == 0x2029 || n == 0x202F ||
  n == 0x205F || n == 0x3000

/-- Go `strings.TrimSpace`: the string without its leading and trailing white space. -/
def TrimSpace (s : GoString) : GoString :=
  ((s.dropWhile isSpace).reverse.dropWhile isSpace).reverse

/-- Go `strings.Split(s, sep)` for a separator `sep` of one character (the program
only splits on `/` and on `.`): the substrings between the separators; always at
least one substring, the empty string splits into one empty substring. -/
def Split : GoString → Char → List GoString
  | [], _ => [[]]
  | c :: cs, sep =>
    if c = sep then [] :: Split cs sep
    else
      match Split cs sep with
      | [] => [[c]]
      | w :: ws => (c :: w) :: ws

/-- Go `strings.Join(elems, sep)`: the elements concatenated, `sep` between
consecutive ones. -/
def Join : List GoString → GoString → GoString
  | [], _ => []
  | [a], _ => a
  | a :: b :: rest, sep => a ++ sep ++ Join (b :: rest) sep

/-! ## Integers -/

/-- The largest value of a 64-bit Go `int`. -/
def maxInt : Int := 2 ^ 63 - 1

/-- Two's-complement wrap-around of a mathematical integer into the range of a
64-bit Go `int`. -/
def wrapInt (x : Int) : Int := (x + 2 ^ 63) % 2 ^ 64 - 2 ^ 63

/-! ## parseS3Key -/

/-- The Go struct `parseError` (lines 48-51). -/
structure parseError where
  err : GoString
  err_details : GoString
deriving DecidableEq, Repr

/-- The error of line 179: `&parseError{"parseS3Key", "S3Key is length 0"}`. -/
def emptyKeyError : parseError :=
  ⟨"parseS3Key".toList, "S3Key is length 0".toList⟩

/-- The error of line 187:
`&parseError{"parseS3Key", fmt.Sprintf("prefix format error %s ", s3Key)}`. -/
def prefixFormatError (s3Key : GoString) : parseError :=
  ⟨"parseS3Key".toList, "prefix format error ".toList ++ s3Key ++ " ".toList⟩

/-- The error of line 194:
`&parseError{"parseS3Key", fmt.Sprintf("videoID format error %s ", s3Key)}`. -/
def videoIDFormatError (s3Key : GoString) : parseError :=
  ⟨"parseS3Key".toList, "videoID format error ".toList ++ s3Key ++ " ".toList⟩

/-- The Go function `parseS3Key` (lines 176-199); the global `s3keyoffset` it
reads is the first argument. The result is `none` when the function panics, and
otherwise the returned triple `(prefix, videoID, error)`, the error being `none`
for Go's `nil`. -/
def parseS3Key (s3keyoffset : Int) (s3Key : GoString) :
    Option (GoString × GoString × Option parseError) :=
  if (TrimSpace s3Key).length = 0 then
    some ([], [], some emptyKeyError)
  else
    let words := Split (TrimSpace s3Key) '/'
    if (words.length : Int) < wrapInt (s3keyoffset + 1) then
      some ([], [], some (prefixFormatError s3Key))
    else
      -- `words[:s3keyoffset]` panics unless `0 ≤ s3keyoffset ≤ cap(words)`;
      -- the slice returned by `strings.Split` has `cap(words) = len(words)`
      if s3keyoffset < 0 ∨ (words.length : Int) < s3keyoffset then none
      else
        let prefix_ := Join (words.take s3keyoffset.toNat) "/".toList
        -- `words[s3keyoffset]` panics when the index is out of range
        match words[s3keyoffset.toNat]? with
        | none => none
        | some videoIDExt =>
          let videoIDSplit := Split videoIDExt '.'
          if videoIDSplit.length = 0 then
            some ([], [], some (videoIDFormatError s3Key))
          else
            match videoIDSplit[0]? with
            | none => none
            | some videoID => some (prefix_, videoID, none)

/-! ## The program state and its environment -/

/-- The package-level variables the two loops read and never write (lines 60-64),
as set by `main` from the command-line flags and by `setInsertStmt`. The Go
variable `prefix` is the field `prefix_`. -/
structure Globals where
  s3BucketName : GoString
  prefix_ : GoString
  verbose : GoString
  maxPages : Int
  s3keyoffset : Int
  numberOfRetrievedFiles : Int
  sqlInsertStmt : GoString

/-- One call `db.Exec(query, args...)`. -/
structure ExecCall where
  query : GoString
  args : List GoString
deriving DecidableEq, Repr

/-- The request `s3.ListObjectsV2Input`, with the fields the program sets. -/
structure ListObjectsV2Input where
  Bucket : GoString
  Prefix : GoString
  ContinuationToken : Option GoString
deriving DecidableEq, Repr

/-- The response `s3.ListObjectsV2Output`, with the fields the program reads:
the keys of `Contents`, in order, `NextContinuationToken` (`none` for `nil`) and
`IsTruncated`. The pointers `key.Key` and `resp.IsTruncated`, which the program
dereferences unchecked, are taken to be set, as they are in a response of the
service. -/
structure ListObjectsV2Output where
  Contents : List GoString
  NextContinuationToken : Option GoString
  IsTruncated : Bool
deriving DecidableEq, Repr

/-- A line written to standard output. -/
inductive Output where
  /-- Line 129, `fmt.Println(err.Error())`. -/
  | fetchError (err : GoString)
  /-- Line 140, `"page Num %d, recCount %d \n"`. -/
  | pageInfo (pageCount : Int) (numberOfRetrievedFiles : Int)
  /-- Line 160, `"s3key: count %d, key %s, s3prefix %s, videoID %s\n"`. -/
  | keyInfo (count : Int) (s3Key : GoString) (s3Prefix : GoString) (videoID : GoString)
  /-- Line 169, `fmt.Println("DB insert Error", dberr)`. -/
  | dbInsertError (dberr : GoString)
deriving DecidableEq, Repr

/-- What the program has changed so far: the global `count`, the calls made to
the store and to the listing service (oldest first) and the lines printed. -/
structure World where
  count : Int
  dbCalls : List ExecCall
  s3Calls : List ListObjectsV2Input
  stdout : List Output
deriving DecidableEq, Repr

/-- The relational store behind `db.Exec`: given the calls made before and the
present call, the error it reports (`none` for `nil`). -/
abbrev Store := List ExecCall → ExecCall → Option GoString

/-- The listing service behind `svc.ListObjectsV2`, as the sequence of its
responses: `svc i` answers the call made after `i` earlier calls. The driver is
deterministic, so its run against any service is its run against the responses
that service gives. -/
abbrev Service := Nat → Except GoString ListObjectsV2Output

/-- How a function stops: it returns, or a panic ends the program. `outOfFuel`
marks a loop model that was given too few iterations; `getBucketObjects` gives
its loop enough (`getBucketObjects_exit`). -/
inductive Completion where
  | returned
  | panicked
  | outOfFuel
deriving DecidableEq, Repr

/-! ## getObjectsPage -/

/-- The `for ... range` loop of `getObjectsPage` (lines 150-172) over the keys
that remain. `Int.tmod` is Go's `%`, the remainder of the division that truncates. -/
def getObjectsPage.loop (g : Globals) (db : Store) :
    List GoString → World → World × Completion
  | [], w => (w, Completion.returned)
  | s3Key :: rest, w =>
    let w1 : World := { w with count := w.count + 1 }
    match parseS3Key g.s3keyoffset s3Key with
    | none => (w1, Completion.panicked)
    | some (_, _, some _) => getObjectsPage.loop g db rest w1
    | some (s3Prefix, videoID, none) =>
      let w2 : World :=
        if w1.count.tmod 1000 = 0 then
          { w1 with stdout := w1.stdout ++ [Output.keyInfo w1.count s3Key s3Prefix videoID] }
        else w1
      let call : ExecCall := ⟨g.sqlInsertStmt, [videoID, g.s3BucketName, s3Prefix, s3Key]⟩
      let dberr := db w2.dbCalls call
      let w3 : World := { w2 with dbCalls := w2.dbCalls ++ [call] }
      match dberr with
      | some e =>
        getObjectsPage.loop g db rest { w3 with stdout := w3.stdout ++ [Output.dbInsertError e] }
      | none => getObjectsPage.loop g db rest w3

/-- The Go function `getObjectsPage` (lines 147-173). As in the source, the
parameter `bucketName` is not used: the insert binds the global `s3BucketName`. -/
def getObjectsPage (g : Globals) (db : Store) (bucketObjectsList : ListObjectsV2Output)
    (bucketName : GoString) (w : World) : World × Completion :=
  getObjectsPage.loop g db bucketObjectsList.Contents w

/-! ## getBucketObjects -/

/-- The local variables of `getBucketObjects`. -/
structure Locals where
  query : ListObjectsV2Input
  truncatedListing : Bool
  pageCount : Int
deriving DecidableEq, Repr

/-- The result of a walk: the locals and the world when it stopped, and how. -/
structure Walk where
  locals : Locals
  world : World
  exit : Completion
deriving DecidableEq, Repr

/-- The `for` loop of `getBucketObjects` (lines 124-142); the first argument
bounds the number of iterations. -/
def getBucketObjects.loop (g : Globals) (svc : Service) (db : Store) (bucketName : GoString) :
    Nat → Locals → World → Walk
  | fuel, l, w =>
    if l.truncatedListing = true ∧ l.pageCount < g.maxPages then
      match fuel with
      | 0 => ⟨l, w, Completion.outOfFuel⟩
      | fuel + 1 =>
        let r := svc w.s3Calls.length
        let w1 : World := { w with s3Calls := w.s3Calls ++ [l.query] }
        let l1 : Locals := { l with pageCount := l.pageCount + 1 }
        match r with
        | Except.error err =>
          ⟨l1, { w1 with stdout := w1.stdout ++ [Output.fetchError err] }, Completion.returned⟩
        | Except.ok resp =>
          match getObjectsPage g db resp bucketName w1 with
          | (w2, Completion.returned) =>
            let l2 : Locals :=
              { l1 with
                query := { l1.query with ContinuationToken := resp.NextContinuationToken }
                truncatedListing := resp.IsTruncated }
            let w3 : World :=
              if g.verbose = "y".toList then
                { w2 with
                  stdout := w2.stdout ++ [Output.pageInfo l2.pageCount g.numberOfRetrievedFiles] }
              else w2
            getBucketObjects.loop g svc db bucketName fuel l2 w3
          | (w2, c) => ⟨l1, w2, c⟩
    else ⟨l, w, Completion.returned⟩

/-- The Go function `getBucketObjects` (lines 113-144). The loop runs at most
`maxPages` times, which is the bound given to its model. -/
def getBucketObjects (g : Globals) (svc : Service) (db : Store) (bucketName : GoString)
    (w : World) : Walk :=
  getBucketObjects.loop g svc db bucketName g.maxPages.toNat
    { query := { Bucket := bucketName, Prefix := g.prefix_, ContinuationToken := none }
      truncatedListing := true
      pageCount := 0 } w

/-! ## What the specification expects of a page -/

/-- The insert the specification asks for one listed key: none when the key does
not parse, and otherwise the statement with the four values (identifier, bucket
name, prefix, key as listed) bound in this order. -/
def insertOf (g : Globals) (bucketName : GoString) (s3Key : GoString) : Option ExecCall :=
  match parseS3Key g.s3keyoffset s3Key with
  | some (s3Prefix, videoID, none) => some ⟨g.sqlInsertStmt, [videoID, bucketName, s3Prefix, s3Key]⟩
  | _ => none

/-! ## Sample inputs -/

/-- Globals as `main` sets them from the default flags, but for the page limit
and the key offset, which are the arguments. -/
def sampleGlobals (maxPages s3keyoffset : Int) : Globals :=
  { s3BucketName := "scrape-bucket".toList
    prefix_ := []
    verbose := "n".toList
    maxPages := maxPages
    s3keyoffset := s3keyoffset
    numberOfRetrievedFiles := 0
    sqlInsertStmt := "INSERT INTO scraped_videos VALUES (?, ?, ?, ?);".toList }

/-- The world at the start of the program. -/
def startWorld : World := ⟨0, [], [], []⟩

/-- A truncated page of four keys; with offset 1 the first and the last parse, the
second is empty and the third has one segment only. -/
def samplePage : ListObjectsV2Output :=
  { Contents := ["a/b.mp4".toList, "".toList, "x".toList, "c/d.e.f".toList]
    NextContinuationToken := some "token".toList
    IsTruncated := true }

/-- A store that accepts every insert. -/
def acceptingStore : Store := fun _ _ => none

/-- A store that rejects every insert. -/
def rejectingStore : Store := fun _ _ => some "Error 1062: Duplicate entry".toList

/-- A listing service whose third answer is an error, every other answer being
`samplePage`. -/
def errorOnThirdCall : Service := fun i =>
  if i = 2 then Except.error "RequestError: send request failed".toList
  else Except.ok samplePage

/-! ## Facts about the string functions -/

theorem Split_ne_nil (s : GoString) (sep : Char) : Split s sep ≠ [] := by
  induction s with
  | nil => simp [Split]
  | cons c cs ih =>
    unfold Split
    split
    · simp
    · split <;> simp

theorem Split_length_pos (s : GoString) (sep : Char) : 0 < (Split s sep).length :=
  List.length_pos.mpr (Split_ne_nil s sep)

/-- The first substring of a split is the part of the string before the first
separator (the whole string when there is none). -/
theorem Split_head (s : GoString) (sep : Char) :
    (Split s sep)[0]? = some (s.takeWhile (fun c => c ≠ sep)) := by
  induction s with
  | nil => simp [Split]
  | cons c cs ih =>
    unfold Split
    by_cases h : c = sep
    · simp [h]
    · simp only [h, if_false]
      cases hs : Split cs sep with
      | nil => exact absurd hs (Split_ne_nil cs sep)
      | cons w ws =>
        rw [hs] at ih
        simp at ih
        simp [List.takeWhile, h, ih]

/-- Joining the substrings of a split with the separator gives the string back. -/
theorem Join_Split (s : GoString) (sep : Char) : Join (Split s sep) [sep] = s := by
  induction s with
  | nil => simp [Split, Join]
  | cons c cs ih =>
    unfold Split
    by_cases h : c = sep
    · simp only [h, if_true]
      cases hs : Split cs sep with
      | nil => exact absurd hs (Split_ne_nil cs sep)
      | cons w ws =>
        rw [hs] at ih
        simp [Join, ih]
    · simp only [h, if_false]
      cases hs : Split cs sep with
      | nil => exact absurd hs (Split_ne_nil cs sep)
      | cons w ws =>
        rw [hs] at ih
        cases ws with
        | nil => simpa [Join] using ih
        | cons w2 ws2 =>
          simp only [Join] at ih ⊢
          simp [← ih]

/-- The join of the first `n + 1` elements, for `n ≥ 1`: the join of the first
`n`, the separator, and the element at index `n`. -/
theorem Join_take_succ (ws : List GoString) (sep : GoString) (n : Nat) (w : GoString)
    (hn : 0 < n) (hw : ws[n]? = some w) :
    Join (ws.take (n + 1)) sep = Join (ws.take n) sep ++ sep ++ w := by
  induction ws generalizing n with
  | nil => simp at hw
  | cons a rest ih =>
    obtain ⟨m, rfl⟩ : ∃ m, n = m + 1 := ⟨n - 1, by omega⟩
    simp only [List.getElem?_cons_succ] at hw
    cases m with
    | zero =>
      cases rest with
      | nil => simp at hw
      | cons b rest2 =>
        simp at hw
        simp [Join, hw]
    | succ k =>
      cases rest with
      | nil => simp at hw
      | cons b rest2 =>
        have := ih (k + 1) (by omega) hw
        simp only [List.take_succ_cons] at this ⊢
        simp only [Join]
        rw [this]
        simp [List.append_assoc]

/-- The join of an initial part of a list is an initial part of the join. -/
theorem Join_take_isPrefix (ws : List GoString) (sep : GoString) (n : Nat) :
    Join (ws.take n) sep <+: Join ws sep := by
  induction ws generalizing n with
  | nil => simp [Join]
  | cons a rest ih =>
    cases n with
    | zero => simp [Join]
    | succ m =>
      cases rest with
      | nil => simp [Join]
      | cons b rest2 =>
        cases m with
        | zero => simp [Join]
        | succ k =>
          have := ih (k + 1)
          simp only [List.take_succ_cons] at this ⊢
          simp only [Join, List.append_assoc]
          exact (List.prefix_append_right_inj a).mpr ((List.prefix_append_right_inj sep).mpr this)

/-- A string of white space only is trimmed to the empty string. -/
theorem TrimSpace_eq_nil_of_all_space (s : GoString) (h : ∀ c ∈ s, isSpace c = true) :
    TrimSpace s = [] := by
  have : s.dropWhile isSpace = [] := List.dropWhile_eq_nil_iff.mpr h
  simp [TrimSpace, this]

theorem wrapInt_le (x : Int) (h : 0 ≤ x) : wrapInt x ≤ x := by
  unfold wrapInt
  omega

theorem wrapInt_eq (x : Int) (h1 : -(2 ^ 63) ≤ x) (h2 : x < 2 ^ 63) : wrapInt x = x := by
  unfold wrapInt
  omega

theorem toList_slash : "/".toList = [ '/'] := rfl

/-! ## parseS3Key -/

/-- The outcome of `parseS3Key` on a key with enough segments. -/
theorem parseS3Key_of_enough (s3keyoffset : Int) (s3Key : GoString)
    (hoff : 0 ≤ s3keyoffset) (hne : TrimSpace s3Key ≠ [])
    (hseg : s3keyoffset + 1 ≤ ((Split (TrimSpace s3Key) '/').length : Int)) :
    ∃ seg, (Split (TrimSpace s3Key) '/')[s3keyoffset.toNat]? = some seg ∧
      parseS3Key s3keyoffset s3Key =
        some (Join ((Split (TrimSpace s3Key) '/').take s3keyoffset.toNat) "/".toList,
          seg.takeWhile (fun c => c ≠ '.'), none) := by
  have hlen : ¬ (TrimSpace s3Key).length = 0 := by
    simpa [List.length_eq_zero] using hne
  have hw := wrapInt_le (s3keyoffset + 1) (by omega)
  have hidx : s3keyoffset.toNat < (Split (TrimSpace s3Key) '/').length := by omega
  refine ⟨(Split (TrimSpace s3Key) '/')[s3keyoffset.toNat], List.getElem?_eq_getElem hidx, ?_⟩
  have h1 : ¬ ((Split (TrimSpace s3Key) '/').length : Int) < wrapInt (s3keyoffset + 1) := by
    omega
  have h2 : ¬ (s3keyoffset < 0 ∨ ((Split (TrimSpace s3Key) '/').length : Int) < s3keyoffset) := by
    omega
  have h3 : ∀ seg : GoString, ¬ (Split seg '.').length = 0 := fun seg =>
    Nat.pos_iff_ne_zero.mp (Split_length_pos seg '.')
  simp only [parseS3Key, hlen, h1, h2, if_false, List.getElem?_eq_getElem hidx, h3, Split_head]

/-- C1: for every key and every offset `≥ 0` such that the trimmed key is not
empty and splits on `/` into at least `offset + 1` segments, `parseS3Key`
returns without error, the prefix being the first `offset` segments joined with
`/` and the identifier the part of the segment at index `offset` before its
first `.` (the whole segment when it holds no `.`). -/
theorem parseS3Key_prefix_and_identifier (s3keyoffset : Int) (s3Key : GoString)
    (hoff : 0 ≤ s3keyoffset) (hne : TrimSpace s3Key ≠ [])
    (hseg : s3keyoffset + 1 ≤ ((Split (TrimSpace s3Key) '/').length : Int)) :
    ∃ seg, (Split (TrimSpace s3Key) '/')[s3keyoffset.toNat]? = some seg ∧
      parseS3Key s3keyoffset s3Key =
        some (Join ((Split (TrimSpace s3Key) '/').take s3keyoffset.toNat) "/".toList,
          seg.takeWhile (fun c => c ≠ '.'), none) :=
  parseS3Key_of_enough s3keyoffset s3Key hoff hne hseg

/-- C1, at the inputs the specification names: `("a/b.mp4", 1)` gives prefix
`a` and identifier `b`, `("a/b/c.mp4", 2)` gives prefix `a/b` and identifier `c`. -/
theorem parseS3Key_prefix_and_identifier_witness :
    parseS3Key 1 "a/b.mp4".toList = some ("a".toList, "b".toList, none) ∧
    parseS3Key 2 "a/b/c.mp4".toList = some ("a/b".toList, "c".toList, none) := by
  obtain ⟨seg1, hs1, h1⟩ := parseS3Key_prefix_and_identifier 1 "a/b.mp4".toList
    (by decide) (by decide) (by decide)
  obtain ⟨seg2, hs2, h2⟩ := parseS3Key_prefix_and_identifier 2 "a/b/c.mp4".toList
    (by decide) (by decide) (by decide)
  have e1 : (Split (TrimSpace "a/b.mp4".toList) '/')[(1 : Int).toNat]? = some "b.mp4".toList := by
    decide
  have e2 : (Split (TrimSpace "a/b/c.mp4".toList) '/')[(2 : Int).toNat]? = some "c.mp4".toList := by
    decide
  rw [e1] at hs1
  rw [e2] at hs2
  cases hs1
  cases hs2
  refine ⟨h1.trans ?_, h2.trans ?_⟩ <;> decide

/-- The outcome of `parseS3Key` on a key with too few segments, for an offset
below the largest `int`. -/
theorem parseS3Key_of_too_few (s3keyoffset : Int) (s3Key : GoString)
    (hoff : 0 ≤ s3keyoffset) (hmax : s3keyoffset < maxInt) (hne : TrimSpace s3Key ≠ [])
    (hseg : ((Split (TrimSpace s3Key) '/').length : Int) < s3keyoffset + 1) :
    parseS3Key s3keyoffset s3Key = some ([], [], some (prefixFormatError s3Key)) := by
  have hlen : ¬ (TrimSpace s3Key).length = 0 := by
    simpa [List.length_eq_zero] using hne
  have hw : wrapInt (s3keyoffset + 1) = s3keyoffset + 1 := by
    unfold maxInt at hmax
    exact wrapInt_eq _ (by omega) (by omega)
  simp only [parseS3Key, hlen, hw, hseg, if_false, if_true]

/-- What C2 states, for the offsets `0 ≤ s3keyoffset < maxInt`: on a key whose
trimmed form is not empty, `parseS3Key` returns an error exactly when the trimmed
key has fewer than `offset + 1` segments, and the error is then the
prefix-format error, with empty prefix and identifier. -/
theorem parseS3Key_error_iff_below_maxInt (s3keyoffset : Int) (s3Key : GoString)
    (hoff : 0 ≤ s3keyoffset) (hmax : s3keyoffset < maxInt) (hne : TrimSpace s3Key ≠ []) :
    ((∃ p v e, parseS3Key s3keyoffset s3Key = some (p, v, some e)) ↔
      ((Split (TrimSpace s3Key) '/').length : Int) < s3keyoffset + 1) ∧
    (∀ p v e, parseS3Key s3keyoffset s3Key = some (p, v, some e) →
      p = [] ∧ v = [] ∧ e = prefixFormatError s3Key) ∧
    parseS3Key s3keyoffset s3Key ≠ none := by
  by_cases hseg : ((Split (TrimSpace s3Key) '/').length : Int) < s3keyoffset + 1
  · have h := parseS3Key_of_too_few s3keyoffset s3Key hoff hmax hne hseg
    refine ⟨⟨fun _ => hseg, fun _ => ⟨_, _, _, h⟩⟩, ?_, by simp [h]⟩
    intro p v e hp
    rw [h] at hp
    simp only [Option.some.injEq, Prod.mk.injEq] at hp
    exact ⟨hp.1.symm, hp.2.1.symm, hp.2.2.symm⟩
  · obtain ⟨seg, _, h⟩ := parseS3Key_of_enough s3keyoffset s3Key hoff hne (by omega)
    refine ⟨⟨?_, fun hc => absurd hc hseg⟩, ?_, by simp [h]⟩
    · rintro ⟨p, v, e, hp⟩
      rw [h] at hp
      simp at hp
    · intro p v e hp
      rw [h] at hp
      simp at hp

/-- C2, at the offset `maxInt = 2^63 - 1` and the key `a`: the trimmed key is not
empty and has one segment, fewer than `offset + 1`, yet `parseS3Key` does not
return the prefix-format error: `s3keyoffset + 1` wraps around to the smallest
`int`, the test of line 186 is passed, and `words[:s3keyoffset]` panics. -/
theorem parseS3Key_maxInt_panics :
    TrimSpace "a".toList ≠ [] ∧
    ((Split (TrimSpace "a".toList) '/').length : Int) < maxInt + 1 ∧
    wrapInt (maxInt + 1) = -(2 ^ 63) ∧
    parseS3Key maxInt "a".toList = none ∧
    parseS3Key maxInt "a".toList ≠ some ([], [], some (prefixFormatError "a".toList)) := by
  decide

/-- C3: for every offset and every key that is empty or holds white space only,
`parseS3Key` returns the empty-key error with empty prefix and identifier. -/
theorem parseS3Key_blank_key (s3keyoffset : Int) (s3Key : GoString)
    (hblank : ∀ c ∈ s3Key, isSpace c = true) :
    parseS3Key s3keyoffset s3Key = some ([], [], some emptyKeyError) := by
  simp [parseS3Key, TrimSpace_eq_nil_of_all_space s3Key hblank]

/-- C3, at the keys the specification names, the empty key and the key of three
blanks, for an offset of 1 and for a negative offset. -/
theorem parseS3Key_blank_key_witness :
    (∀ c ∈ "   ".toList, isSpace c = true) ∧
    parseS3Key 1 "   ".toList = some ([], [], some emptyKeyError) ∧
    parseS3Key (-5) "".toList = some ([], [], some emptyKeyError) :=
  ⟨by decide, parseS3Key_blank_key 1 "   ".toList (by decide),
    parseS3Key_blank_key (-5) "".toList (by decide)⟩

/-- C10: splitting on `.` always gives at least one substring, so for every
offset and key the outcome of `parseS3Key` is a panic, a success, the empty-key
error or the prefix-format error, and never the videoID-format error of line 194. -/
theorem parseS3Key_never_videoID_error (s3keyoffset : Int) (s3Key : GoString) :
    (∀ videoIDExt : GoString, 1 ≤ (Split videoIDExt '.').length) ∧
    (parseS3Key s3keyoffset s3Key = none ∨
      (∃ p v, parseS3Key s3keyoffset s3Key = some (p, v, none)) ∨
      parseS3Key s3keyoffset s3Key = some ([], [], some emptyKeyError) ∨
      parseS3Key s3keyoffset s3Key = some ([], [], some (prefixFormatError s3Key))) ∧
    (∀ p v k, parseS3Key s3keyoffset s3Key ≠ some (p, v, some (videoIDFormatError k))) := by
  have h3 : ∀ seg : GoString, ¬ (Split seg '.').length = 0 := fun seg =>
    Nat.pos_iff_ne_zero.mp (Split_length_pos seg '.')
  have hcases : parseS3Key s3keyoffset s3Key = none ∨
      (∃ p v, parseS3Key s3keyoffset s3Key = some (p, v, none)) ∨
      parseS3Key s3keyoffset s3Key = some ([], [], some emptyKeyError) ∨
      parseS3Key s3keyoffset s3Key = some ([], [], some (prefixFormatError s3Key)) := by
    unfold parseS3Key
    simp only [h3, if_false, Split_head]
    split
    · simp
    · split
      · simp
      · split
        · simp
        · split <;> simp
  refine ⟨fun seg => Split_length_pos seg '.', hcases, ?_⟩
  intro p v k hk
  rcases hcases with h | ⟨p2, v2, h⟩ | h | h <;> rw [h] at hk
  · simp at hk
  · simp at hk
  · simp [emptyKeyError, videoIDFormatError] at hk
  · simp [prefixFormatError, videoIDFormatError] at hk

/-- C4 as stated fails in two ways. With offset 1 the key ` a/b.mp4` (a leading
blank) parses to prefix `a` and identifier `b`, and `a/b` is not an initial part
of the key. With offset 0 the key `a.mp4` parses to the empty prefix and
identifier `a`, and the two joined by `/`, that is `/a`, is not an initial part
of the key. -/
theorem parseS3Key_join_not_prefix_of_key :
    (TrimSpace " a/b.mp4".toList ≠ [] ∧
      (1 : Int) + 1 ≤ ((Split (TrimSpace " a/b.mp4".toList) '/').length : Int) ∧
      parseS3Key 1 " a/b.mp4".toList = some ("a".toList, "b".toList, none) ∧
      ¬ (Join ["a".toList, "b".toList] "/".toList <+: " a/b.mp4".toList)) ∧
    (TrimSpace "a.mp4".toList ≠ [] ∧
      (0 : Int) + 1 ≤ ((Split (TrimSpace "a.mp4".toList) '/').length : Int) ∧
      parseS3Key 0 "a.mp4".toList = some ([], "a".toList, none) ∧
      ¬ (Join [[], "a".toList] "/".toList <+: "a.mp4".toList)) := by
  decide

/-- C4, amended: for every key whose trimmed form is not empty and has at least
`offset + 1` segments (`offset ≥ 0`), `parseS3Key` returns without error; for
`offset ≥ 1` the prefix, a `/` and the identifier make up an initial part of the
trimmed key, and for `offset = 0` the prefix is empty and the identifier is an
initial part of the trimmed key. -/
theorem parseS3Key_rebuilds_prefix_of_trimmed (s3keyoffset : Int) (s3Key : GoString)
    (hoff : 0 ≤ s3keyoffset) (hne : TrimSpace s3Key ≠ [])
    (hseg : s3keyoffset + 1 ≤ ((Split (TrimSpace s3Key) '/').length : Int)) :
    ∃ p v, parseS3Key s3keyoffset s3Key = some (p, v, none) ∧
      (1 ≤ s3keyoffset → p ++ "/".toList ++ v <+: TrimSpace s3Key) ∧
      (s3keyoffset = 0 → p = [] ∧ v <+: TrimSpace s3Key) := by
  obtain ⟨seg, hs, h⟩ := parseS3Key_of_enough s3keyoffset s3Key hoff hne hseg
  refine ⟨_, _, h, ?_, ?_⟩
  · intro h1
    have hj := Join_take_succ (Split (TrimSpace s3Key) '/') "/".toList s3keyoffset.toNat seg
      (by omega) hs
    have hp := Join_take_isPrefix (Split (TrimSpace s3Key) '/') "/".toList
      (s3keyoffset.toNat + 1)
    rw [hj, toList_slash, Join_Split] at hp
    rw [toList_slash]
    refine List.IsPrefix.trans ?_ hp
    exact (List.prefix_append_right_inj _).mpr (List.takeWhile_prefix _)
  · intro h0
    subst h0
    have hp := Join_take_isPrefix (Split (TrimSpace s3Key) '/') "/".toList 1
    rw [toList_slash, Join_Split] at hp
    refine ⟨by simp [Join], List.IsPrefix.trans (List.takeWhile_prefix _) ?_⟩
    cases hsp : Split (TrimSpace s3Key) '/' with
    | nil => exact absurd hsp (Split_ne_nil _ _)
    | cons a rest =>
      rw [hsp] at hs hp
      simp at hs
      subst hs
      simpa [Join] using hp

/-- C4 amended, at the key ` a/b.mp4` with offset 1 and at `a.mp4` with offset 0. -/
theorem parseS3Key_rebuilds_prefix_of_trimmed_witness :
    (∃ p v, parseS3Key 1 " a/b.mp4".toList = some (p, v, none) ∧
      ((1 : Int) ≤ 1 → p ++ "/".toList ++ v <+: TrimSpace " a/b.mp4".toList) ∧
      ((1 : Int) = 0 → p = [] ∧ v <+: TrimSpace " a/b.mp4".toList)) ∧
    (∃ p v, parseS3Key 0 "a.mp4".toList = some (p, v, none) ∧
      ((1 : Int) ≤ 0 → p ++ "/".toList ++ v <+: TrimSpace "a.mp4".toList) ∧
      ((0 : Int) = 0 → p = [] ∧ v <+: TrimSpace "a.mp4".toList)) :=
  ⟨parseS3Key_rebuilds_prefix_of_trimmed 1 " a/b.mp4".toList (by decide) (by decide) (by decide),
    parseS3Key_rebuilds_prefix_of_trimmed 0 "a.mp4".toList (by decide) (by decide) (by decide)⟩

/-! ## getObjectsPage -/

/-- For an offset `0 ≤ s3keyoffset < maxInt`, `parseS3Key` does not panic. -/
theorem parseS3Key_no_panic (s3keyoffset : Int) (s3Key : GoString)
    (hoff : 0 ≤ s3keyoffset) (hmax : s3keyoffset < maxInt) :
    parseS3Key s3keyoffset s3Key ≠ none := by
  by_cases hne : TrimSpace s3Key = []
  · simp [parseS3Key, hne]
  · by_cases hseg : ((Split (TrimSpace s3Key) '/').length : Int) < s3keyoffset + 1
    · simp [parseS3Key_of_too_few s3keyoffset s3Key hoff hmax hne hseg]
    · obtain ⟨seg, _, h⟩ := parseS3Key_of_enough s3keyoffset s3Key hoff hne (by omega)
      simp [h]

/-- The loop over the keys makes no call to the listing service. -/
theorem getObjectsPage_loop_s3Calls (g : Globals) (db : Store) (keys : List GoString) (w : World) :
    (getObjectsPage.loop g db keys w).1.s3Calls = w.s3Calls := by
  induction keys generalizing w with
  | nil => simp [getObjectsPage.loop]
  | cons k rest ih =>
    rcases h : parseS3Key g.s3keyoffset k with _ | ⟨p, v, _ | e⟩
    · simp [getObjectsPage.loop, h]
    · simp only [getObjectsPage.loop, h]
      split <;> split <;> simp [ih]
    · simp [getObjectsPage.loop, h, ih]

/-- The loop over the keys, when no key makes `parseS3Key` panic: it returns,
having called the store once for each key that parses, in order, and having
counted every key. -/
theorem getObjectsPage_loop_spec (g : Globals) (db : Store)
    (hoff : 0 ≤ g.s3keyoffset) (hmax : g.s3keyoffset < maxInt)
    (keys : List GoString) (w : World) :
    (getObjectsPage.loop g db keys w).2 = Completion.returned ∧
    (getObjectsPage.loop g db keys w).1.dbCalls =
      w.dbCalls ++ keys.filterMap (insertOf g g.s3BucketName) ∧
    (getObjectsPage.loop g db keys w).1.count = w.count + keys.length := by
  induction keys generalizing w with
  | nil => simp [getObjectsPage.loop]
  | cons k rest ih =>
    rcases h : parseS3Key g.s3keyoffset k with _ | ⟨p, v, _ | e⟩
    · exact absurd h (parseS3Key_no_panic _ _ hoff hmax)
    · have hins : insertOf g g.s3BucketName k =
          some ⟨g.sqlInsertStmt, [v, g.s3BucketName, p, k]⟩ := by
        simp [insertOf, h]
      simp only [getObjectsPage.loop, h, List.filterMap_cons, hins]
      split <;> split <;>
        (refine ⟨(ih _).1, ?_, ?_⟩
         · rw [(ih _).2.1]; simp
         · rw [(ih _).2.2]; simp; omega)
    · have hins : insertOf g g.s3BucketName k = none := by
        simp [insertOf, h]
      simp only [getObjectsPage.loop, h, List.filterMap_cons, hins]
      refine ⟨(ih _).1, ?_, ?_⟩
      · rw [(ih _).2.1]
      · rw [(ih _).2.2]; simp; omega

/-- The loop over the keys against two stores, from worlds with the same
counter and the same calls: the same outcome, counter and calls. -/
theorem getObjectsPage_loop_store_irrelevant (g : Globals) (db1 db2 : Store)
    (keys : List GoString) (w1 w2 : World)
    (hc : w1.count = w2.count) (hd : w1.dbCalls = w2.dbCalls) (hs : w1.s3Calls = w2.s3Calls) :
    (getObjectsPage.loop g db1 keys w1).2 = (getObjectsPage.loop g db2 keys w2).2 ∧
    (getObjectsPage.loop g db1 keys w1).1.count = (getObjectsPage.loop g db2 keys w2).1.count ∧
    (getObjectsPage.loop g db1 keys w1).1.dbCalls = (getObjectsPage.loop g db2 keys w2).1.dbCalls ∧
    (getObjectsPage.loop g db1 keys w1).1.s3Calls =
      (getObjectsPage.loop g db2 keys w2).1.s3Calls := by
  induction keys generalizing w1 w2 with
  | nil => simp [getObjectsPage.loop, hc, hd, hs]
  | cons k rest ih =>
    rcases h : parseS3Key g.s3keyoffset k with _ | ⟨p, v, _ | e⟩
    · simp [getObjectsPage.loop, h, hc, hd, hs]
    · simp only [getObjectsPage.loop, h]
      split <;> split <;> split <;> split <;>
        (apply ih <;> simp [hc, hd, hs])
    · simp only [getObjectsPage.loop, h]
      apply ih <;> simp [hc, hd, hs]

/-! ## getBucketObjects: one iteration -/

/-- The loop stops when its condition fails. -/
theorem getBucketObjects_loop_stop (g : Globals) (svc : Service) (db : Store)
    (bucketName : GoString) (fuel : Nat) (l : Locals) (w : World)
    (hc : ¬ (l.truncatedListing = true ∧ l.pageCount < g.maxPages)) :
    getBucketObjects.loop g svc db bucketName fuel l w = ⟨l, w, Completion.returned⟩ := by
  cases fuel <;> simp [getBucketObjects.loop, hc]

/-- An iteration in which the listing service reports an error. -/
theorem getBucketObjects_loop_error (g : Globals) (svc : Service) (db : Store)
    (bucketName : GoString) (fuel : Nat) (l : Locals) (w : World) (err : GoString)
    (hc : l.truncatedListing = true ∧ l.pageCount < g.maxPages)
    (hr : svc w.s3Calls.length = Except.error err) :
    getBucketObjects.loop g svc db bucketName (fuel + 1) l w =
      ⟨{ l with pageCount := l.pageCount + 1 },
        { w with
          s3Calls := w.s3Calls ++ [l.query]
          stdout := w.stdout ++ [Output.fetchError err] },
        Completion.returned⟩ := by
  simp [getBucketObjects.loop, hc, hr]

/-- An iteration in which the page is processed to its end. -/
theorem getBucketObjects_loop_page (g : Globals) (svc : Service) (db : Store)
    (bucketName : GoString) (fuel : Nat) (l : Locals) (w w2 : World)
    (resp : ListObjectsV2Output)
    (hc : l.truncatedListing = true ∧ l.pageCount < g.maxPages)
    (hr : svc w.s3Calls.length = Except.ok resp)
    (hp : getObjectsPage g db resp bucketName { w with s3Calls := w.s3Calls ++ [l.query] } =
      (w2, Completion.returned)) :
    getBucketObjects.loop g svc db bucketName (fuel + 1) l w =
      getBucketObjects.loop g svc db bucketName fuel
        { query := { l.query with ContinuationToken := resp.NextContinuationToken }
          truncatedListing := resp.IsTruncated
          pageCount := l.pageCount + 1 }
        (if g.verbose = "y".toList then
          { w2 with
            stdout := w2.stdout ++ [Output.pageInfo (l.pageCount + 1) g.numberOfRetrievedFiles] }
         else w2) := by
  rw [getBucketObjects.loop]
  simp only [hc, and_self, if_true, hr, hp]

/-- An iteration in which the processing of the page does not return. -/
theorem getBucketObjects_loop_abort (g : Globals) (svc : Service) (db : Store)
    (bucketName : GoString) (fuel : Nat) (l : Locals) (w w2 : World)
    (resp : ListObjectsV2Output) (c : Completion)
    (hc : l.truncatedListing = true ∧ l.pageCount < g.maxPages)
    (hr : svc w.s3Calls.length = Except.ok resp)
    (hp : getObjectsPage g db resp bucketName { w with s3Calls := w.s3Calls ++ [l.query] } =
      (w2, c))
    (hne : c ≠ Completion.returned) :
    getBucketObjects.loop g svc db bucketName (fuel + 1) l w =
      ⟨{ l with pageCount := l.pageCount + 1 }, w2, c⟩ := by
  rw [getBucketObjects.loop]
  simp only [hc, and_self, if_true, hr, hp]

/-! ## getBucketObjects: the whole loop -/

theorem getObjectsPage_s3Calls (g : Globals) (db : Store) (resp : ListObjectsV2Output)
    (bucketName : GoString) (w w2 : World) (c : Completion)
    (hp : getObjectsPage g db resp bucketName w = (w2, c)) : w2.s3Calls = w.s3Calls := by
  have h := getObjectsPage_loop_s3Calls g db resp.Contents w
  unfold getObjectsPage at hp
  rw [hp] at h
  exact h

/-- The requests of the loop: each names the bucket and the prefix of the first
one, the first carries the token the loop started with, each later one the token
of the page before it; `pageCount` grows by the number of requests. -/
theorem getBucketObjects_loop_queries (g : Globals) (svc : Service) (db : Store)
    (bucketName : GoString) (fuel : Nat) (l : Locals) (w : World)
    (hb : l.query.Bucket = bucketName) (hx : l.query.Prefix = g.prefix_) :
    ∃ calls : List ListObjectsV2Input,
      (getBucketObjects.loop g svc db bucketName fuel l w).world.s3Calls = w.s3Calls ++ calls ∧
      (getBucketObjects.loop g svc db bucketName fuel l w).locals.pageCount =
        l.pageCount + calls.length ∧
      ∀ k q, calls[k]? = some q →
        q.Bucket = bucketName ∧ q.Prefix = g.prefix_ ∧
        (k = 0 → q.ContinuationToken = l.query.ContinuationToken) ∧
        (∀ j, k = j + 1 → ∃ p, svc (w.s3Calls.length + j) = Except.ok p ∧
          q.ContinuationToken = p.NextContinuationToken) := by
  have single : ∀ k q, [l.query][k]? = some q →
      q.Bucket = bucketName ∧ q.Prefix = g.prefix_ ∧
      (k = 0 → q.ContinuationToken = l.query.ContinuationToken) ∧
      (∀ j, k = j + 1 → ∃ p, svc (w.s3Calls.length + j) = Except.ok p ∧
        q.ContinuationToken = p.NextContinuationToken) := by
    intro k q hk
    cases k with
    | zero =>
      simp at hk
      subst hk
      exact ⟨hb, hx, fun _ => rfl, fun j hj => by omega⟩
    | succ k => simp at hk
  induction fuel generalizing l w with
  | zero =>
    refine ⟨[], ?_, ?_, ?_⟩
    · by_cases hc : l.truncatedListing = true ∧ l.pageCount < g.maxPages <;>
        simp [getBucketObjects.loop, hc]
    · by_cases hc : l.truncatedListing = true ∧ l.pageCount < g.maxPages <;>
        simp [getBucketObjects.loop, hc]
    · intro k q hk
      simp at hk
  | succ fuel ih =>
    by_cases hc : l.truncatedListing = true ∧ l.pageCount < g.maxPages
    swap
    · rw [getBucketObjects_loop_stop g svc db bucketName _ l w hc]
      exact ⟨[], by simp, by simp, fun k q hk => by simp at hk⟩
    cases hr : svc w.s3Calls.length with
    | error err =>
      rw [getBucketObjects_loop_error g svc db bucketName fuel l w err hc hr]
      exact ⟨[l.query], rfl, by simp, single⟩
    | ok resp =>
      rcases hp : getObjectsPage g db resp bucketName
        { w with s3Calls := w.s3Calls ++ [l.query] } with ⟨w2, c⟩
      have hs2 : w2.s3Calls = w.s3Calls ++ [l.query] :=
        getObjectsPage_s3Calls g db resp bucketName _ w2 c hp
      by_cases hcr : c = Completion.returned
      · subst hcr
        rw [getBucketObjects_loop_page g svc db bucketName fuel l w w2 resp hc hr hp]
        obtain ⟨calls, h1, h2, h3⟩ := ih
          { query := { l.query with ContinuationToken := resp.NextContinuationToken }
            truncatedListing := resp.IsTruncated
            pageCount := l.pageCount + 1 }
          (if g.verbose = "y".toList then
            { w2 with
              stdout := w2.stdout ++
                [Output.pageInfo (l.pageCount + 1) g.numberOfRetrievedFiles] }
           else w2) hb hx
          (by
            intro k q hk
            cases k with
            | zero =>
              simp at hk
              subst hk
              exact ⟨hb, hx, fun _ => rfl, fun j hj => by omega⟩
            | succ k => simp at hk)
        have hs3 : (if g.verbose = "y".toList then
            { w2 with
              stdout := w2.stdout ++
                [Output.pageInfo (l.pageCount + 1) g.numberOfRetrievedFiles] }
           else w2).s3Calls = w.s3Calls ++ [l.query] := by
          split <;> simp [hs2]
        rw [hs3] at h1 h3
        refine ⟨l.query :: calls, ?_, ?_, ?_⟩
        · rw [h1]; simp
        · rw [h2]; simp; omega
        · intro k q hk
          cases k with
          | zero =>
            simp at hk
            subst hk
            exact ⟨hb, hx, fun _ => rfl, fun j hj => by omega⟩
          | succ k =>
            simp only [List.getElem?_cons_succ] at hk
            obtain ⟨hq1, hq2, hq3, hq4⟩ := h3 k q hk
            refine ⟨hq1, hq2, fun h0 => by omega, ?_⟩
            intro j hj
            have hjk : j = k := by omega
            subst hjk
            cases j with
            | zero => exact ⟨resp, by simpa using hr, by simpa using hq3 rfl⟩
            | succ i =>
              obtain ⟨p, hp1, hp2⟩ := hq4 i rfl
              refine ⟨p, ?_, hp2⟩
              rw [← hp1]
              congr 1
              simp
              omega
      · rw [getBucketObjects_loop_abort g svc db bucketName fuel l w w2 resp c hc hr hp hcr]
        exact ⟨[l.query], by simp [hs2], by simp, single⟩

theorem getObjectsPage_returns (g : Globals) (db : Store)
    (hoff : 0 ≤ g.s3keyoffset) (hmax : g.s3keyoffset < maxInt)
    (resp : ListObjectsV2Output) (bucketName : GoString) (w : World) :
    ∃ w2, getObjectsPage g db resp bucketName w = (w2, Completion.returned) ∧
      w2.s3Calls = w.s3Calls ∧
      w2.dbCalls = w.dbCalls ++ resp.Contents.filterMap (insertOf g g.s3BucketName) ∧
      w2.count = w.count + resp.Contents.length := by
  obtain ⟨h1, h2, h3⟩ := getObjectsPage_loop_spec g db hoff hmax resp.Contents w
  refine ⟨(getObjectsPage.loop g db resp.Contents w).1, ?_,
    getObjectsPage_loop_s3Calls g db resp.Contents w, h2, h3⟩
  unfold getObjectsPage
  exact Prod.ext rfl h1

/-- The number of requests of the loop against a service that never reports an
error, when no key makes `parseS3Key` panic. -/
theorem getBucketObjects_loop_count (g : Globals) (pages : Nat → ListObjectsV2Output)
    (db : Store) (bucketName : GoString)
    (hoff : 0 ≤ g.s3keyoffset) (hmax : g.s3keyoffset < maxInt)
    (fuel : Nat) (l : Locals) (w : World)
    (hf : fuel = (g.maxPages - l.pageCount).toNat) (ht : l.truncatedListing = true) :
    (getBucketObjects.loop g (fun i => Except.ok (pages i)) db bucketName fuel l w).exit =
      Completion.returned ∧
    (getBucketObjects.loop g (fun i => Except.ok (pages i)) db bucketName fuel l w).world.s3Calls.length =
      w.s3Calls.length + min fuel
        (((List.range fuel).takeWhile
          (fun i => (pages (w.s3Calls.length + i)).IsTruncated)).length + 1) := by
  induction fuel generalizing l w with
  | zero =>
    have hc : ¬ (l.truncatedListing = true ∧ l.pageCount < g.maxPages) := by omega
    rw [getBucketObjects_loop_stop _ _ db bucketName _ l w hc]
    simp
  | succ fuel ih =>
    have hc : l.truncatedListing = true ∧ l.pageCount < g.maxPages := ⟨ht, by omega⟩
    obtain ⟨w2, hp, hs2, _, _⟩ := getObjectsPage_returns g db hoff hmax
      (pages w.s3Calls.length) bucketName { w with s3Calls := w.s3Calls ++ [l.query] }
    rw [getBucketObjects_loop_page g _ db bucketName fuel l w w2 (pages w.s3Calls.length)
      hc rfl hp]
    have hs3 : (if g.verbose = "y".toList then
        { w2 with
          stdout := w2.stdout ++
            [Output.pageInfo (l.pageCount + 1) g.numberOfRetrievedFiles] }
       else w2).s3Calls = w.s3Calls ++ [l.query] := by
      split <;> simp [hs2]
    rw [List.range_succ_eq_map, List.takeWhile_cons]
    by_cases htr : (pages w.s3Calls.length).IsTruncated = true
    · obtain ⟨h1, h2⟩ := ih
        { query := { l.query with ContinuationToken := (pages w.s3Calls.length).NextContinuationToken }
          truncatedListing := (pages w.s3Calls.length).IsTruncated
          pageCount := l.pageCount + 1 }
        (if g.verbose = "y".toList then
          { w2 with
            stdout := w2.stdout ++
              [Output.pageInfo (l.pageCount + 1) g.numberOfRetrievedFiles] }
         else w2) (by simp; omega) htr
      refine ⟨h1, ?_⟩
      rw [h2, hs3]
      simp only [Nat.add_zero, htr, if_true, List.length_cons, List.takeWhile_map,
        List.length_map, List.length_append, List.length_singleton, List.length_nil,
        Nat.zero_add]
      have e : (fun i => (pages (w.s3Calls.length + 1 + i)).IsTruncated) =
          ((fun i => (pages (w.s3Calls.length + i)).IsTruncated) ∘ Nat.succ) := by
        funext i
        simp only [Function.comp]
        congr 2
        omega
      rw [e]
      omega
    · rw [getBucketObjects_loop_stop _ _ db bucketName _ _ _ (by simp [htr])]
      simp only [Nat.add_zero, htr, hs3, List.length_append, List.length_singleton]
      simp

/-- The loop when the listing service answers with the truncated pages `pages`
and then with an error, no key making `parseS3Key` panic. -/
theorem getBucketObjects_loop_fetch_error (g : Globals) (svc : Service) (db : Store)
    (bucketName : GoString) (hoff : 0 ≤ g.s3keyoffset) (hmax : g.s3keyoffset < maxInt)
    (err : GoString) (pages : List ListObjectsV2Output) (fuel : Nat) (l : Locals) (w : World)
    (ht : l.truncatedListing = true) (hn : l.pageCount + pages.length < g.maxPages)
    (hf : pages.length < fuel)
    (hpages : ∀ i p, pages[i]? = some p →
      svc (w.s3Calls.length + i) = Except.ok p ∧ p.IsTruncated = true)
    (herr : svc (w.s3Calls.length + pages.length) = Except.error err) :
    (getBucketObjects.loop g svc db bucketName fuel l w).exit = Completion.returned ∧
    (getBucketObjects.loop g svc db bucketName fuel l w).world.s3Calls.length =
      w.s3Calls.length + (pages.length + 1) ∧
    (getBucketObjects.loop g svc db bucketName fuel l w).world.dbCalls =
      w.dbCalls ++ pages.flatMap (fun p => p.Contents.filterMap (insertOf g g.s3BucketName)) ∧
    (getBucketObjects.loop g svc db bucketName fuel l w).world.count =
      w.count + (pages.map (fun p => (p.Contents.length : Int))).sum ∧
    (getBucketObjects.loop g svc db bucketName fuel l w).world.stdout.getLast? =
      some (Output.fetchError err) := by
  induction pages generalizing fuel l w with
  | nil =>
    obtain ⟨f, rfl⟩ : ∃ f, fuel = f + 1 := ⟨fuel - 1, by simp at hf; omega⟩
    have hc : l.truncatedListing = true ∧ l.pageCount < g.maxPages := ⟨ht, by simpa using hn⟩
    rw [getBucketObjects_loop_error g svc db bucketName f l w err hc (by simpa using herr)]
    simp
  | cons p ps ih =>
    obtain ⟨f, rfl⟩ : ∃ f, fuel = f + 1 := ⟨fuel - 1, by simp at hf; omega⟩
    have hc : l.truncatedListing = true ∧ l.pageCount < g.maxPages :=
      ⟨ht, by simp at hn; omega⟩
    obtain ⟨hr, htr⟩ := hpages 0 p (by simp)
    obtain ⟨w2, hp, hs2, hd2, hc2⟩ := getObjectsPage_returns g db hoff hmax p bucketName
      { w with s3Calls := w.s3Calls ++ [l.query] }
    rw [getBucketObjects_loop_page g svc db bucketName f l w w2 p hc (by simpa using hr) hp]
    have hs3 : (if g.verbose = "y".toList then
        { w2 with
          stdout := w2.stdout ++
            [Output.pageInfo (l.pageCount + 1) g.numberOfRetrievedFiles] }
       else w2).s3Calls = w.s3Calls ++ [l.query] := by
      split <;> simp [hs2]
    have hd3 : (if g.verbose = "y".toList then
        { w2 with
          stdout := w2.stdout ++
            [Output.pageInfo (l.pageCount + 1) g.numberOfRetrievedFiles] }
       else w2).dbCalls = w.dbCalls ++ p.Contents.filterMap (insertOf g g.s3BucketName) := by
      split <;> simp [hd2]
    have hc3 : (if g.verbose = "y".toList then
        { w2 with
          stdout := w2.stdout ++
            [Output.pageInfo (l.pageCount + 1) g.numberOfRetrievedFiles] }
       else w2).count = w.count + p.Contents.length := by
      split <;> simp [hc2]
    obtain ⟨h1, h2, h3, h4, h5⟩ := ih f
      { query := { l.query with ContinuationToken := p.NextContinuationToken }
        truncatedListing := p.IsTruncated
        pageCount := l.pageCount + 1 }
      (if g.verbose = "y".toList then
        { w2 with
          stdout := w2.stdout ++
            [Output.pageInfo (l.pageCount + 1) g.numberOfRetrievedFiles] }
       else w2) htr (by simp at hn ⊢; omega) (by simp at hf; omega)
      (by
        intro i q hq
        rw [hs3]
        have := hpages (i + 1) q (by simpa using hq)
        simp only [List.length_append, List.length_singleton]
        rw [show w.s3Calls.length + 1 + i = w.s3Calls.length + (i + 1) by omega]
        exact this)
      (by
        rw [hs3]
        simp only [List.length_append, List.length_singleton]
        rw [show w.s3Calls.length + 1 + ps.length = w.s3Calls.length + (ps.length + 1) by omega]
        simpa using herr)
    refine ⟨h1, ?_, ?_, ?_, h5⟩
    · rw [h2, hs3]; simp; omega
    · rw [h3, hd3]; simp
    · rw [h4, hc3]; simp; omega

/-- The loop against two stores, from worlds with the same counter and the same
calls: the same locals, outcome, counter and calls. -/
theorem getBucketObjects_loop_store_irrelevant (g : Globals) (svc : Service)
    (db1 db2 : Store) (bucketName : GoString) (fuel : Nat) (l : Locals) (w1 w2 : World)
    (hc : w1.count = w2.count) (hd : w1.dbCalls = w2.dbCalls) (hs : w1.s3Calls = w2.s3Calls) :
    (getBucketObjects.loop g svc db1 bucketName fuel l w1).locals =
      (getBucketObjects.loop g svc db2 bucketName fuel l w2).locals ∧
    (getBucketObjects.loop g svc db1 bucketName fuel l w1).exit =
      (getBucketObjects.loop g svc db2 bucketName fuel l w2).exit ∧
    (getBucketObjects.loop g svc db1 bucketName fuel l w1).world.count =
      (getBucketObjects.loop g svc db2 bucketName fuel l w2).world.count ∧
    (getBucketObjects.loop g svc db1 bucketName fuel l w1).world.dbCalls =
      (getBucketObjects.loop g svc db2 bucketName fuel l w2).world.dbCalls ∧
    (getBucketObjects.loop g svc db1 bucketName fuel l w1).world.s3Calls =
      (getBucketObjects.loop g svc db2 bucketName fuel l w2).world.s3Calls := by
  induction fuel generalizing l w1 w2 with
  | zero =>
    by_cases hcond : l.truncatedListing = true ∧ l.pageCount < g.maxPages <;>
      simp [getBucketObjects.loop, hcond, hc, hd, hs]
  | succ fuel ih =>
    by_cases hcond : l.truncatedListing = true ∧ l.pageCount < g.maxPages
    swap
    · rw [getBucketObjects_loop_stop g svc db1 bucketName _ l w1 hcond,
        getBucketObjects_loop_stop g svc db2 bucketName _ l w2 hcond]
      exact ⟨rfl, rfl, hc, hd, hs⟩
    have hlen : w2.s3Calls.length = w1.s3Calls.length := by rw [hs]
    cases hr : svc w1.s3Calls.length with
    | error err =>
      rw [getBucketObjects_loop_error g svc db1 bucketName fuel l w1 err hcond hr,
        getBucketObjects_loop_error g svc db2 bucketName fuel l w2 err hcond (hlen ▸ hr)]
      simp [hc, hd, hs]
    | ok resp =>
      rcases hp1 : getObjectsPage g db1 resp bucketName
        { w1 with s3Calls := w1.s3Calls ++ [l.query] } with ⟨v1, c1⟩
      rcases hp2 : getObjectsPage g db2 resp bucketName
        { w2 with s3Calls := w2.s3Calls ++ [l.query] } with ⟨v2, c2⟩
      have hpage := getObjectsPage_loop_store_irrelevant g db1 db2 resp.Contents
        { w1 with s3Calls := w1.s3Calls ++ [l.query] }
        { w2 with s3Calls := w2.s3Calls ++ [l.query] } hc hd (by simp [hs])
      unfold getObjectsPage at hp1 hp2
      rw [hp1, hp2] at hpage
      obtain ⟨e1, e2, e3, e4⟩ := hpage
      simp only at e1 e2 e3 e4
      subst e1
      by_cases hcr : c1 = Completion.returned
      · subst hcr
        rw [getBucketObjects_loop_page g svc db1 bucketName fuel l w1 v1 resp hcond hr hp1,
          getBucketObjects_loop_page g svc db2 bucketName fuel l w2 v2 resp hcond
            (hlen ▸ hr) hp2]
        apply ih <;> split <;> simp [e2, e3, e4]
      · rw [getBucketObjects_loop_abort g svc db1 bucketName fuel l w1 v1 resp c1 hcond hr hp1 hcr,
          getBucketObjects_loop_abort g svc db2 bucketName fuel l w2 v2 resp c1 hcond
            (hlen ▸ hr) hp2 hcr]
        exact ⟨rfl, rfl, e2, e3, e4⟩

theorem getObjectsPage_loop_exit (g : Globals) (db : Store) (keys : List GoString) (w : World) :
    (getObjectsPage.loop g db keys w).2 ≠ Completion.outOfFuel := by
  induction keys generalizing w with
  | nil => simp [getObjectsPage.loop]
  | cons k rest ih =>
    rcases h : parseS3Key g.s3keyoffset k with _ | ⟨p, v, _ | e⟩
    · simp [getObjectsPage.loop, h]
    · simp only [getObjectsPage.loop, h]
      split <;> split <;> exact ih _
    · simp only [getObjectsPage.loop, h]
      exact ih _

theorem getBucketObjects_loop_exit (g : Globals) (svc : Service) (db : Store)
    (bucketName : GoString) (fuel : Nat) (l : Locals) (w : World)
    (hf : (g.maxPages - l.pageCount).toNat ≤ fuel) :
    (getBucketObjects.loop g svc db bucketName fuel l w).exit ≠ Completion.outOfFuel := by
  induction fuel generalizing l w with
  | zero =>
    have hc : ¬ (l.truncatedListing = true ∧ l.pageCount < g.maxPages) := by omega
    rw [getBucketObjects_loop_stop g svc db bucketName _ l w hc]
    simp
  | succ fuel ih =>
    by_cases hc : l.truncatedListing = true ∧ l.pageCount < g.maxPages
    swap
    · rw [getBucketObjects_loop_stop g svc db bucketName _ l w hc]
      simp
    cases hr : svc w.s3Calls.length with
    | error err =>
      rw [getBucketObjects_loop_error g svc db bucketName fuel l w err hc hr]
      simp
    | ok resp =>
      rcases hp : getObjectsPage g db resp bucketName
        { w with s3Calls := w.s3Calls ++ [l.query] } with ⟨w2, c⟩
      by_cases hcr : c = Completion.returned
      · subst hcr
        rw [getBucketObjects_loop_page g svc db bucketName fuel l w w2 resp hc hr hp]
        exact ih _ _ (by simp; omega)
      · rw [getBucketObjects_loop_abort g svc db bucketName fuel l w w2 resp c hc hr hp hcr]
        have h := getObjectsPage_loop_exit g db resp.Contents
          { w with s3Calls := w.s3Calls ++ [l.query] }
        unfold getObjectsPage at hp
        rw [hp] at h
        exact h

/-- The bound `maxPages` given to the loop of `getBucketObjects` is enough: the
walk returns or panics. -/
theorem getBucketObjects_exit (g : Globals) (svc : Service) (db : Store)
    (bucketName : GoString) (w : World) :
    (getBucketObjects g svc db bucketName w).exit = Completion.returned ∨
    (getBucketObjects g svc db bucketName w).exit = Completion.panicked := by
  have h := getBucketObjects_loop_exit g svc db bucketName g.maxPages.toNat
    { query := { Bucket := bucketName, Prefix := g.prefix_, ContinuationToken := none }
      truncatedListing := true
      pageCount := 0 } w (by simp)
  unfold getBucketObjects
  cases he : (getBucketObjects.loop g svc db bucketName g.maxPages.toNat
    { query := { Bucket := bucketName, Prefix := g.prefix_, ContinuationToken := none }
      truncatedListing := true
      pageCount := 0 } w).exit with
  | returned => exact Or.inl rfl
  | panicked => exact Or.inr rfl
  | outOfFuel => exact absurd he h

/-! ## The claims on the walk -/

/-- C5: against a listing service that never reports an error, with an offset
`0 ≤ s3keyoffset < maxInt` (no key makes `parseS3Key` panic), `getBucketObjects`
returns after `min(maxPages, index of the first page that is not truncated)`
requests, the index counted from 1 among the first `maxPages` pages; it makes no
request when `maxPages ≤ 0`, and exactly `maxPages` requests when the first
`maxPages + 2` pages are all truncated. -/
theorem getBucketObjects_fetch_count (g : Globals) (pages : Nat → ListObjectsV2Output)
    (db : Store) (bucketName : GoString) (w : World)
    (hoff : 0 ≤ g.s3keyoffset) (hmax : g.s3keyoffset < maxInt) :
    (getBucketObjects g (fun i => Except.ok (pages i)) db bucketName w).exit =
      Completion.returned ∧
    (getBucketObjects g (fun i => Except.ok (pages i)) db bucketName w).world.s3Calls.length =
      w.s3Calls.length + min g.maxPages.toNat
        (((List.range g.maxPages.toNat).takeWhile
          (fun i => (pages (w.s3Calls.length + i)).IsTruncated)).length + 1) ∧
    (g.maxPages ≤ 0 →
      (getBucketObjects g (fun i => Except.ok (pages i)) db bucketName w).world.s3Calls.length =
        w.s3Calls.length) ∧
    ((∀ i, i < g.maxPages.toNat + 2 → (pages (w.s3Calls.length + i)).IsTruncated = true) →
      (getBucketObjects g (fun i => Except.ok (pages i)) db bucketName w).world.s3Calls.length =
        w.s3Calls.length + g.maxPages.toNat) := by
  obtain ⟨h1, h2⟩ := getBucketObjects_loop_count g pages db bucketName hoff hmax
    g.maxPages.toNat
    { query := { Bucket := bucketName, Prefix := g.prefix_, ContinuationToken := none }
      truncatedListing := true
      pageCount := 0 } w (by simp) rfl
  refine ⟨h1, h2, ?_, ?_⟩
  · intro h0
    unfold getBucketObjects
    rw [h2, Int.toNat_eq_zero.mpr h0]
    simp
  · intro hall
    unfold getBucketObjects
    rw [h2]
    have : (List.range g.maxPages.toNat).takeWhile
        (fun i => (pages (w.s3Calls.length + i)).IsTruncated) = List.range g.maxPages.toNat := by
      rw [List.takeWhile_eq_self_iff]
      intro i hi
      exact hall i (by have := List.mem_range.mp hi; omega)
    rw [this]
    simp

/-- C5, with a page limit of 2 against a service that only ever returns truncated
pages: two requests. -/
theorem getBucketObjects_fetch_count_witness :
    (0 : Int) ≤ (sampleGlobals 2 1).s3keyoffset ∧ (sampleGlobals 2 1).s3keyoffset < maxInt ∧
    (getBucketObjects (sampleGlobals 2 1) (fun _ => Except.ok samplePage)
      acceptingStore "scrape-bucket".toList startWorld).world.s3Calls.length = 2 :=
  ⟨by decide, by decide,
    ((getBucketObjects_fetch_count (sampleGlobals 2 1) (fun _ => samplePage) acceptingStore
      "scrape-bucket".toList startWorld (by decide) (by decide)).2.2.2 (fun _ _ => rfl)).trans
      (by decide)⟩

/-- C6: when the listing service answers with the truncated pages `pages` and then,
on request number `pages.length + 1 ≤ maxPages`, with an error (the offset being
`0 ≤ s3keyoffset < maxInt`), `getBucketObjects` returns having made exactly
`pages.length + 1` requests; the inserts made are those of `pages`, the keys
counted those of `pages`, and the last line printed is the error. -/
theorem getBucketObjects_halts_on_fetch_error (g : Globals) (svc : Service) (db : Store)
    (bucketName : GoString) (w : World) (err : GoString) (pages : List ListObjectsV2Output)
    (hoff : 0 ≤ g.s3keyoffset) (hmax : g.s3keyoffset < maxInt)
    (hn : (pages.length : Int) + 1 ≤ g.maxPages)
    (hpages : ∀ i p, pages[i]? = some p →
      svc (w.s3Calls.length + i) = Except.ok p ∧ p.IsTruncated = true)
    (herr : svc (w.s3Calls.length + pages.length) = Except.error err) :
    (getBucketObjects g svc db bucketName w).exit = Completion.returned ∧
    (getBucketObjects g svc db bucketName w).world.s3Calls.length =
      w.s3Calls.length + (pages.length + 1) ∧
    (getBucketObjects g svc db bucketName w).world.dbCalls =
      w.dbCalls ++ pages.flatMap (fun p => p.Contents.filterMap (insertOf g g.s3BucketName)) ∧
    (getBucketObjects g svc db bucketName w).world.count =
      w.count + (pages.map (fun p => (p.Contents.length : Int))).sum ∧
    (getBucketObjects g svc db bucketName w).world.stdout.getLast? =
      some (Output.fetchError err) :=
  getBucketObjects_loop_fetch_error g svc db bucketName hoff hmax err pages g.maxPages.toNat
    { query := { Bucket := bucketName, Prefix := g.prefix_, ContinuationToken := none }
      truncatedListing := true
      pageCount := 0 } w rfl (by simp; omega) (by omega) hpages herr

/-- C6, for an error on page 3 of a walk limited to 5 pages: three requests, and
the inserts of the first two pages only. -/
theorem getBucketObjects_halts_on_fetch_error_witness :
    (getBucketObjects (sampleGlobals 5 1) errorOnThirdCall rejectingStore
      "scrape-bucket".toList startWorld).world.s3Calls.length = 3 ∧
    (getBucketObjects (sampleGlobals 5 1) errorOnThirdCall rejectingStore
      "scrape-bucket".toList startWorld).world.dbCalls.length = 4 := by
  have h := getBucketObjects_halts_on_fetch_error (sampleGlobals 5 1) errorOnThirdCall
    rejectingStore "scrape-bucket".toList startWorld
    "RequestError: send request failed".toList [samplePage, samplePage]
    (by decide) (by decide) (by decide)
    (by
      intro i p hp
      match i, hp with
      | 0, hp => simp at hp; subst hp; exact ⟨rfl, rfl⟩
      | 1, hp => simp at hp; subst hp; exact ⟨rfl, rfl⟩
      | i + 2, hp => simp at hp)
    rfl
  refine ⟨h.2.1, ?_⟩
  rw [h.2.2.1]
  decide

/-- C7: the calls `getObjectsPage` makes to the store, their number and order, and
whether it returns, are the same whatever the store answers; and so are the store
calls of the whole walk of `getBucketObjects`. -/
theorem getObjectsPage_attempts_ignore_store_results (g : Globals) (db1 db2 : Store)
    (bucketObjectsList : ListObjectsV2Output) (bucketName : GoString) (w : World)
    (svc : Service) :
    (getObjectsPage g db1 bucketObjectsList bucketName w).1.dbCalls =
      (getObjectsPage g db2 bucketObjectsList bucketName w).1.dbCalls ∧
    (getObjectsPage g db1 bucketObjectsList bucketName w).2 =
      (getObjectsPage g db2 bucketObjectsList bucketName w).2 ∧
    (getBucketObjects g svc db1 bucketName w).world.dbCalls =
      (getBucketObjects g svc db2 bucketName w).world.dbCalls ∧
    (getBucketObjects g svc db1 bucketName w).world.s3Calls =
      (getBucketObjects g svc db2 bucketName w).world.s3Calls := by
  obtain ⟨a1, _, a3, _⟩ := getObjectsPage_loop_store_irrelevant g db1 db2
    bucketObjectsList.Contents w w rfl rfl rfl
  obtain ⟨_, _, _, b4, b5⟩ := getBucketObjects_loop_store_irrelevant g svc db1 db2 bucketName
    g.maxPages.toNat
    { query := { Bucket := bucketName, Prefix := g.prefix_, ContinuationToken := none }
      truncatedListing := true
      pageCount := 0 } w w rfl rfl rfl
  exact ⟨a3, a1, b4, b5⟩

/-- C8: for an offset `0 ≤ s3keyoffset < maxInt` and the bucket name that `main`
passes (the global `s3BucketName`), `getObjectsPage` returns having called the
store once for each key of the page that `parseS3Key` parses, in page order, and
for no other key; each call binds the identifier, the bucket name, the prefix and
the key as listed, in this order. -/
theorem getObjectsPage_inserts (g : Globals) (db : Store)
    (bucketObjectsList : ListObjectsV2Output) (bucketName : GoString) (w : World)
    (hoff : 0 ≤ g.s3keyoffset) (hmax : g.s3keyoffset < maxInt)
    (hb : bucketName = g.s3BucketName) :
    (getObjectsPage g db bucketObjectsList bucketName w).2 = Completion.returned ∧
    (getObjectsPage g db bucketObjectsList bucketName w).1.dbCalls =
      w.dbCalls ++ bucketObjectsList.Contents.filterMap (insertOf g bucketName) := by
  subst hb
  obtain ⟨h1, h2, _⟩ := getObjectsPage_loop_spec g db hoff hmax bucketObjectsList.Contents w
  exact ⟨h1, h2⟩

/-- C8, on `samplePage` with offset 1 and a store that rejects every insert: the
two keys that parse are inserted, in order, the second and the third key (which
do not parse) are not. -/
theorem getObjectsPage_inserts_witness :
    (getObjectsPage (sampleGlobals 10 1) rejectingStore samplePage "scrape-bucket".toList
      startWorld).1.dbCalls =
      [⟨(sampleGlobals 10 1).sqlInsertStmt,
          ["b".toList, "scrape-bucket".toList, "a".toList, "a/b.mp4".toList]⟩,
        ⟨(sampleGlobals 10 1).sqlInsertStmt,
          ["d".toList, "scrape-bucket".toList, "c".toList, "c/d.e.f".toList]⟩] :=
  (getObjectsPage_inserts (sampleGlobals 10 1) rejectingStore samplePage
    "scrape-bucket".toList startWorld (by decide) (by decide) rfl).2.trans (by decide)

/-- C9: the requests of a walk of `getBucketObjects` all name the bucket passed
and the global prefix; the first carries no continuation token and each later
one the token of the page returned just before it; `pageCount` ends as the
number of requests made. -/
theorem getBucketObjects_continuation_tokens (g : Globals) (svc : Service) (db : Store)
    (bucketName : GoString) (w : World) :
    ∃ calls : List ListObjectsV2Input,
      (getBucketObjects g svc db bucketName w).world.s3Calls = w.s3Calls ++ calls ∧
      (getBucketObjects g svc db bucketName w).locals.pageCount = calls.length ∧
      ∀ k q, calls[k]? = some q →
        q.Bucket = bucketName ∧ q.Prefix = g.prefix_ ∧
        (k = 0 → q.ContinuationToken = none) ∧
        (∀ j, k = j + 1 → ∃ p, svc (w.s3Calls.length + j) = Except.ok p ∧
          q.ContinuationToken = p.NextContinuationToken) := by
  obtain ⟨calls, h1, h2, h3⟩ := getBucketObjects_loop_queries g svc db bucketName
    g.maxPages.toNat
    { query := { Bucket := bucketName, Prefix := g.prefix_, ContinuationToken := none }
      truncatedListing := true
      pageCount := 0 } w rfl rfl
  exact ⟨calls, h1, by simpa using h2, h3⟩

end ListBucket
